import Mathlib

/-!
Verification development for the hassil intent recognizer
(src/hassil/recognize.py).  The Python module is shallowly embedded:
text is a list of characters, Python dictionaries are association lists,
generators become lists of yielded values, and exceptions become an
explicit error type threaded through `Except`.  Recursion through
expansion rules is not structurally terminating in the source, so the
matcher takes an explicit fuel argument; running out of fuel is modeled
as an error (the Python analogue is the interpreter recursion limit).
-/

set_option autoImplicit false

namespace Hassil

/-- Text is modeled as a list of characters (Python `str`). -/
abbrev Str := List Char

/-- Python regex class `\s` restricted to the ASCII whitespace characters
(space, tab, newline, carriage return, vertical tab, form feed).
Non-ASCII whitespace is outside the modeled alphabet. -/
def isSpaceChar (c : Char) : Bool :=
  c = ' ' || c = '\t' || c = '\n' || c = '\r' || c = '\u000B' || c = '\u000C'

/-- The punctuation characters of the PUNCTUATION regex in recognize.py. -/
def punctChars : Str := ".。,，?¿？؟!！;；:：".toList

/-- PUNCTUATION.sub with empty replacement: delete every punctuation character. -/
def removePunct (s : Str) : Str := s.filter (fun c => !(punctChars.contains c))

/-- WHITESPACE.sub with empty replacement: delete every whitespace character. -/
def removeWs (s : Str) : Str := s.filter (fun c => !(isSpaceChar c))

/-- Python str.lstrip with no arguments. -/
def lstrip (s : Str) : Str := s.dropWhile isSpaceChar

/-- Python str.rstrip with no arguments. -/
def rstrip (s : Str) : Str := (s.reverse.dropWhile isSpaceChar).reverse

/-- Python str.strip with no arguments. -/
def strip (s : Str) : Str := rstrip (lstrip s)

/-- Python str.isspace: non-empty and all whitespace. -/
def pyIsSpace (s : Str) : Bool := !s.isEmpty && s.all isSpaceChar

/-- Python str.endswith for a single-character suffix. -/
def endsWithChar (s : Str) (c : Char) : Bool := s.getLast? = some c

/-- Auxiliary scan of `findSub`, structural on the remaining suffix. -/
def findSubAux (pat : Str) : Str → Nat → Option Nat
  | s, i =>
    if pat.isPrefixOf s then some i
    else match s with
      | [] => none
      | _ :: rest => findSubAux pat rest (i + 1)

/-- Python str.find(pat, start) returning an index instead of -1.
Only used with a non-empty pattern in the matcher. -/
def findSub (hay pat : Str) (start : Nat) : Option Nat :=
  if start > hay.length then none
  else findSubAux pat (hay.drop start) start

/-- Occurrence scan used by the wildcard chunk loop: all occurrence indices of
`pat` in `hay` at positions at least `start`, found left to right, each next
search starting one past the previous hit (so overlapping hits are kept),
exactly like the while loop around recognize.py line 689. -/
def occurrencesAux (hay pat : Str) : Nat → Nat → List Nat
  | 0, _ => []
  | k + 1, start =>
    match findSub hay pat start with
    | none => []
    | some i => i :: occurrencesAux hay pat k (i + 1)

/-- All occurrence indices of `pat` in `hay` from position `start` on. -/
def occurrencesFrom (hay pat : Str) (start : Nat) : List Nat :=
  occurrencesAux hay pat (hay.length + 1) start

/-- Auxiliary accumulator-based whitespace split. -/
def splitWsAux : Str → Str → List Str
  | [], acc => if acc = [] then [] else [acc.reverse]
  | c :: rest, acc =>
    if isSpaceChar c then
      if acc = [] then splitWsAux rest [] else acc.reverse :: splitWsAux rest []
    else splitWsAux rest (c :: acc)

/-- Python str.split with no arguments: split on whitespace runs, no empties. -/
def splitWs (s : Str) : List Str := splitWsAux s []

/-- First whitespace-delimited token, Python `text.split()[0]`.  At its only
call site the text is known to contain a digit, so the Python IndexError on
all-whitespace input is unreachable; the model returns the empty string there. -/
def firstWsToken (s : Str) : Str :=
  match splitWs s with
  | [] => []
  | t :: _ => t

/-- ASCII digit test, regex class [0-9]. -/
def isDigitChar (c : Char) : Bool := '0' ≤ c && c ≤ '9'

/-- Numeric value of an ASCII digit string. -/
def digitsToNat (ds : Str) : Nat :=
  ds.foldl (fun n c => 10 * n + (c.toNat - '0'.toNat)) 0

/-- The NUMBER_START regex of recognize.py: match a leading group
`\s*-?[0-9]+` of the text and return (matched text, integer value of the
matched text under Python int()).  The whitespace run is maximal, then an
optional single minus sign, then a maximal non-empty digit run. -/
def lexNumber (s : Str) : Option (Str × Int) :=
  let ws := s.takeWhile isSpaceChar
  let rest := s.drop ws.length
  match rest with
  | '-' :: rest2 =>
    let ds := rest2.takeWhile isDigitChar
    if ds = [] then none else some (ws ++ '-' :: ds, -(digitsToNat ds : Int))
  | _ =>
    let ds := rest.takeWhile isDigitChar
    if ds = [] then none else some (ws ++ ds, (digitsToNat ds : Int))

/-- Whitespace-run collapsing, accumulator style. -/
def collapseWsAux : Str → Bool → Str
  | [], _ => []
  | c :: rest, prev =>
    if isSpaceChar c then
      if prev then collapseWsAux rest true else ' ' :: collapseWsAux rest true
    else c :: collapseWsAux rest false

/-- Modelled from the spec: normalize_whitespace of the external util module
(not part of the sources) collapses runs of whitespace to single spaces,
which is exactly WHITESPACE.sub with a single-space replacement. -/
def normalize_whitespace (s : Str) : Str := collapseWsAux s false

/-- Modelled from the spec: normalize_text of the external util module (not
part of the sources).  The spec requires only a deterministic, idempotent
canonical form, so the model takes the identity canonicalization; every
claim proved here is insensitive to the choice. -/
def normalize_text (s : Str) : Str := s

/-- Python word character for the regex word boundary: [A-Za-z0-9_]. -/
def isWordChar (c : Char) : Bool := c.isAlpha || c.isDigit || c = '_'

/-- Character at an index, if in range. -/
def charAt? (s : Str) (i : Nat) : Option Char := (s.drop i).head?

/-- True when the character at index `i` exists and is a word character. -/
def isWordAt (s : Str) (i : Nat) : Bool :=
  match charAt? s i with
  | some c => isWordChar c
  | none => false

/-- Regex word boundary at position `i` of `s` (positions run 0..length). -/
def boundaryAt (s : Str) (i : Nat) : Bool :=
  (if i = 0 then false else isWordAt s (i - 1)) != isWordAt s i

/-- Auxiliary scan for `subWordBounded`, structural on a fuel that bounds the
number of positions visited. -/
def subWordAux (s w : Str) : Nat → Nat → Str
  | 0, pos => s.drop pos
  | k + 1, pos =>
    match charAt? s pos with
    | none => []
    | some c =>
      if w ≠ [] ∧ w.isPrefixOf (s.drop pos) ∧ boundaryAt s pos ∧ boundaryAt s (pos + w.length)
      then subWordAux s w k (pos + w.length)
      else c :: subWordAux s w k (pos + 1)

/-- Python re.sub of a word-boundary-delimited literal with the empty
replacement: delete every left-to-right non-overlapping occurrence of `w`
in `s` that sits between word boundaries of `s`.  An empty `w` leaves the
text unchanged (the replacement is empty). -/
def subWordBounded (s w : Str) : Str := subWordAux s w (s.length + 1) 0

/-- Python str.replace(w, empty) via a fuel bounded by the text length:
delete left-to-right non-overlapping occurrences of `w`. -/
def replaceAllAux (w : Str) : Nat → Str → Str
  | 0, t => t
  | k + 1, t =>
    if w ≠ [] ∧ w.isPrefixOf t then replaceAllAux w k (t.drop w.length)
    else match t with
      | [] => []
      | c :: rest => c :: replaceAllAux w k rest

/-- Python str.replace with empty replacement. -/
def replaceAll (t w : Str) : Str := replaceAllAux w t.length t

/-- Stable insertion of a string into a length-descending sorted list:
equal lengths keep the earlier element later in the recursion, matching
the stability of Python sorted with reverse=True. -/
def insertByLenDesc (x : Str) : List Str → List Str
  | [] => [x]
  | y :: ys => if y.length ≤ x.length then x :: y :: ys else y :: insertByLenDesc x ys

/-- Python sorted(key=len, reverse=True): stable, longest first. -/
def sortByLenDesc : List Str → List Str
  | [] => []
  | x :: xs => insertByLenDesc x (sortByLenDesc xs)

/-- Python values appearing in intent contexts, slot values and entities.
Collections are modeled as strings and lists of strings, matching the uses
in the recognizer (context values and overlay values). -/
inductive PyValue where
  | pnone
  | pstr (s : Str)
  | pint (n : Int)
  | plist (items : List Str)
deriving DecidableEq, Repr

/-- Python equality between modeled values (structural, False across types). -/
def pyEq (a b : PyValue) : Bool := decide (a = b)

/-- Python isinstance(v, collections.abc.Collection) over the modeled values:
strings and lists are Collections, None and int are not. -/
def pyIsCollection : PyValue → Bool
  | .pstr _ => true
  | .plist _ => true
  | .pnone => false
  | .pint _ => false

/-- Python isinstance(v, str) over the modeled values. -/
def pyIsStr : PyValue → Bool
  | .pstr _ => true
  | _ => false

/-- Substring test, Python `needle in hay` for strings. -/
def isSubstr (needle hay : Str) : Bool := (findSub hay needle 0).isSome

/-- Typed errors raised by the recognizer.  MissingListError and
MissingRuleError are the two constructors of the common base HassilError,
mirroring the class hierarchy in recognize.py; the model stores the
referenced name instead of the formatted message. -/
inductive HassilError where
  | missingListError (name : Str)
  | missingRuleError (name : Str)
deriving DecidableEq, Repr

/-- Exceptional outcomes of a modeled run: a HassilError raised by the
recognizer, a Python TypeError from a malformed membership test, or fuel
exhaustion (the model of the interpreter recursion limit on unboundedly
recursive templates). -/
inductive MatchError where
  | hassilErr (e : HassilError)
  | typeErr
  | fuelExhausted
deriving DecidableEq, Repr

/-- Python `a in b` for a modeled value and a modeled collection: list
membership compares elements with ==, string membership is the substring
test and raises TypeError when the left operand is not a string, and a
non-collection right operand raises TypeError. -/
def pyMem (a b : PyValue) : Except MatchError Bool :=
  match b with
  | .plist items =>
    match a with
    | .pstr s => .ok (decide (s ∈ items))
    | _ => .ok false
  | .pstr hay =>
    match a with
    | .pstr needle => .ok (isSubstr needle hay)
    | _ => .error .typeErr
  | _ => .error .typeErr

/-- Association-list lookup modeling Python dict indexing / `in`
(first entry with the key; dictionaries are represented without duplicate
keys so this is the dictionary entry). -/
def pyGet? {α : Type} : List (Str × α) → Str → Option α
  | [], _ => none
  | (k, v) :: rest, key => if k = key then some v else pyGet? rest key

/-- Python dict item assignment: replace the first entry with the key in
place, or append a new entry. -/
def dictInsert {α : Type} : List (Str × α) → Str → α → List (Str × α)
  | [], k, v => [(k, v)]
  | (k0, v0) :: rest, k, v =>
    if k0 = k then (k, v) :: rest else (k0, v0) :: dictInsert rest k v

/-- Python double-star merge of two dictionaries: start from the first and
assign every item of the second in order, so the second wins on collision
and no key of the first is removed. -/
def pyDictMerge {α : Type} (d overlay : List (Str × α)) : List (Str × α) :=
  overlay.foldl (fun acc p => dictInsert acc p.1 p.2) d

/-- Modelled from the spec: the two Sequence kinds of the expression module
(expression.py is not part of the sources).  GROUP requires all items in
order, ALTERNATIVE requires any one item. -/
inductive SequenceType where
  | group
  | alternative
deriving DecidableEq, Repr

/-- Modelled from the spec: grammar expression nodes of the expression module
(expression.py is not part of the sources).  TextChunk carries its literal
text (is_empty holds exactly when that text is empty); ListReference carries
the referenced list name and the slot name it binds; RuleReference carries
the referenced rule name.  Sentences are expressions. -/
inductive Expression where
  | textChunk (text : Str)
  | sequence (type : SequenceType) (items : List Expression)
  | listReference (list_name : Str) (slot_name : Str)
  | ruleReference (rule_name : Str)
deriving Repr

/-- Modelled from the spec: one value of a TextSlotList (intents.py is not
part of the sources): an input expression, an opaque output value, and an
optional context overlay (the empty overlay models Python None or an empty
dict, both falsy at the check in recognize.py line 860). -/
structure TextSlotValue where
  text_in : Expression
  value_out : PyValue
  context : List (Str × PyValue)
deriving Repr

/-- Modelled from the spec: the slot list variants of intents.py (not part of
the sources): finite text alternatives, an integer range with start, stop
and step, and the wildcard. -/
inductive SlotList where
  | textList (values : List TextSlotValue)
  | rangeList (rstart : Int) (rstop : Int) (rstep : Int)
  | wildcardList
deriving Repr

/-- MatchEntity of recognize.py: a named slot capture. -/
structure MatchEntity where
  name : Str
  value : PyValue
  text : Str
  is_wildcard : Bool
  is_wildcard_open : Bool
deriving DecidableEq, Repr

/-- UnmatchedEntity of recognize.py: the text and range variants of the
abstract base class. -/
inductive UnmatchedEntity where
  | unmatchedText (name : Str) (text : Str) (is_open : Bool)
  | unmatchedRange (name : Str) (value : Int)
deriving DecidableEq, Repr

/-- Name of an unmatched entity (the field of the abstract base class). -/
def UnmatchedEntity.name : UnmatchedEntity → Str
  | .unmatchedText n _ _ => n
  | .unmatchedRange n _ => n

/-- MatchSettings of recognize.py. -/
structure MatchSettings where
  slot_lists : List (Str × SlotList)
  expansion_rules : List (Str × Expression)
  ignore_whitespace : Bool
  allow_unmatched_entities : Bool
deriving Repr

/-- MatchContext of recognize.py.  The close_wildcards / close_unmatched
constructor flags of the dataclass are modeled by applying the
corresponding closing functions at each construction site that sets them. -/
structure MatchContext where
  text : Str
  entities : List MatchEntity
  intent_context : List (Str × PyValue)
  is_start_of_word : Bool
  unmatched_entities : List UnmatchedEntity
deriving DecidableEq, Repr

/-- Effect of close_wildcards in MatchContext.__post_init__: the open flag of
every entity in the list is cleared. -/
def closeWildcards (es : List MatchEntity) : List MatchEntity :=
  es.map (fun e => { e with is_wildcard_open := false })

/-- Effect of close_unmatched in MatchContext.__post_init__: every unmatched
text entity in the list is closed. -/
def closeUnmatchedTexts (us : List UnmatchedEntity) : List UnmatchedEntity :=
  us.map (fun u =>
    match u with
    | .unmatchedText n t _ => .unmatchedText n t false
    | .unmatchedRange n v => .unmatchedRange n v)

/-- MatchContext.is_match of recognize.py: no remaining text after removing
punctuation and stripping whitespace, no wildcard entity with
whitespace-only text, and no unmatched text entity with whitespace-only
text. -/
def MatchContext.is_match (self : MatchContext) : Bool :=
  if !(strip (removePunct self.text)).isEmpty then false
  else if self.entities.any (fun e => e.is_wildcard && (strip e.text).isEmpty) then false
  else if self.unmatched_entities.any (fun u =>
      match u with
      | .unmatchedText _ t _ => (strip t).isEmpty
      | .unmatchedRange _ _ => false) then false
  else true

/-- MatchContext.get_open_wildcard of recognize.py: the last entity when it
is an open wildcard. -/
def MatchContext.get_open_wildcard (self : MatchContext) : Option MatchEntity :=
  match self.entities.getLast? with
  | none => none
  | some last =>
    if last.is_wildcard && last.is_wildcard_open then some last else none

/-- MatchContext.get_open_entity of recognize.py: the last unmatched entity
when it is an open unmatched text entity, returned as (name, text). -/
def MatchContext.get_open_entity (self : MatchContext) : Option (Str × Str) :=
  match self.unmatched_entities.getLast? with
  | none => none
  | some (.unmatchedText n t is_op) => if is_op then some (n, t) else none
  | some (.unmatchedRange _ _) => none

/-- The in-range test exactly as the RangeSlotList branch writes it
(recognize.py lines 906-913): a unit step compares the bounds directly,
a non-unit step tests membership in Python range(start, stop + 1, step);
the formula shown is Python range membership for a positive step. -/
def rangeContains (rstart rstop rstep n : Int) : Bool :=
  if rstep = 1 then decide (rstart ≤ n) && decide (n ≤ rstop)
  else decide (rstart ≤ n) && decide (n < rstop + 1) && decide ((n - rstart) % rstep = 0)

/-- Type of the recursive matcher passed into the per-case helpers (the
recursive occurrence of match_expression at one less fuel). -/
abbrev MatchRec := MatchContext → Expression → Except MatchError (List MatchContext)

/-- Concatenation of the yields of the recursive matcher over a list of
candidate contexts for one item (the inner flat-map of the GROUP step). -/
def flatMapContexts (m : MatchContext → Except MatchError (List MatchContext)) :
    List MatchContext → Except MatchError (List MatchContext)
  | [] => .ok []
  | c :: rest => do
    let first ← m c
    let more ← flatMapContexts m rest
    .ok (first ++ more)

/-- The GROUP loop of recognize.py lines 804-815: fold the items from the
left over a working list of candidate contexts, replacing the list by the
flat-map of matching the item, and stop as soon as the list is empty
(the break in the source). -/
def groupFoldAbort (m : MatchRec) : List MatchContext → List Expression →
    Except MatchError (List MatchContext)
  | acc, [] => .ok acc
  | acc, item :: rest => do
    let acc2 ← flatMapContexts (fun c => m c item) acc
    if acc2 = [] then .ok [] else groupFoldAbort m acc2 rest

/-- The ALTERNATIVE loop of recognize.py lines 798-799: yield from each item
in declaration order. -/
def matchItems (m : MatchRec) (context : MatchContext) :
    List Expression → Except MatchError (List MatchContext)
  | [] => .ok []
  | item :: rest => do
    let first ← m context item
    let more ← matchItems m context rest
    .ok (first ++ more)

/-- Body of the per-value loop of the TextSlotList branch (recognize.py lines
833-881, without the per-value unmatched fallback): match the value input
expression against a fresh fork of the context, and for each resulting
sub-context append the new MatchEntity and either merge the value context
overlay into the original intent context (overlay wins) or keep the
sub-context intent context. -/
def matchTextSlotValue (m : MatchRec) (context : MatchContext) (slot_name : Str)
    (v : TextSlotValue) : Except MatchError (List MatchContext) := do
  let value_contexts ← m
    ⟨context.text, context.entities, context.intent_context,
      context.is_start_of_word, context.unmatched_entities⟩ v.text_in
  .ok (value_contexts.map (fun vc =>
    let entities := context.entities ++
      [⟨slot_name, v.value_out,
        if vc.text ≠ [] then context.text.take (context.text.length - vc.text.length)
        else context.text,
        false, true⟩]
    if v.context ≠ [] then
      ⟨vc.text, entities, pyDictMerge context.intent_context v.context,
        context.is_start_of_word, context.unmatched_entities⟩
    else
      ⟨vc.text, entities, vc.intent_context,
        context.is_start_of_word, context.unmatched_entities⟩))

/-- The values loop of the TextSlotList branch (recognize.py lines 833-895):
each value yields its contexts; a value with no matches yields one
unmatched-text fallback context when tolerant mode is on (has_matches is
reset per value in the source). -/
def matchTextListValues (m : MatchRec) (allow_unmatched : Bool)
    (context : MatchContext) (slot_name : Str) :
    List TextSlotValue → Except MatchError (List MatchContext)
  | [] => .ok []
  | v :: rest => do
    let vcs ← matchTextSlotValue m context slot_name v
    let vcs := if vcs = [] && allow_unmatched then
        [⟨context.text, closeWildcards context.entities, context.intent_context,
          context.is_start_of_word,
          context.unmatched_entities ++ [.unmatchedText slot_name [] true]⟩]
      else vcs
    let more ← matchTextListValues m allow_unmatched context slot_name rest
    .ok (vcs ++ more)

/-- The literal-match tail of the TextChunk case (recognize.py lines
715-792), reached when there is no open wildcard with empty text: the
startswith attempt, the trailing-whitespace skip, the punctuation-stripped
retry, and the wildcard / unmatched-entity extension fallbacks.  Returns
(yielded contexts, caller context after the call); the caller context
differs from the input exactly where the source mutates the aliased
entity or unmatched-entity lists. -/
def matchTextChunkLiteral (settings : MatchSettings) (context : MatchContext)
    (chunk_text0 context_text0 : Str) (is_context_text_empty : Bool)
    (chunkFull : Str) (wildcard? : Option MatchEntity) :
    Except MatchError (List MatchContext × MatchContext) :=
  if chunk_text0.isPrefixOf context_text0 then
    -- successful literal match for the chunk
    let is_chunk_word := !chunk_text0.isEmpty && !(pyIsSpace chunk_text0)
    let entities' := if is_chunk_word then closeWildcards context.entities
      else context.entities
    let unmatched' := if is_chunk_word then closeUnmatchedTexts context.unmatched_entities
      else context.unmatched_entities
    .ok ([⟨context_text0.drop chunk_text0.length, entities', context.intent_context,
          endsWithChar chunkFull ' ', unmatched'⟩],
        -- __post_init__ closing runs over the aliased lists of the caller
        ⟨context.text, entities', context.intent_context,
          context.is_start_of_word, unmatched'⟩)
  else if is_context_text_empty && pyIsSpace chunk_text0 then
    -- nothing left to match: trailing template whitespace is skipped
    .ok ([context], context)
  else
    -- remove punctuation from the original text and try again
    let ct0 := removePunct context.text
    let stripped :=
      if !(chunk_text0.isPrefixOf ct0) && context.is_start_of_word then lstrip ct0
      else ct0
    if chunk_text0.isPrefixOf stripped then
      .ok ([⟨stripped.drop chunk_text0.length, context.entities,
            context.intent_context, context.is_start_of_word,
            context.unmatched_entities⟩], context)
    else
      match wildcard? with
      | some w =>
        -- extend the open wildcard in place up to the next chunk occurrence
        match findSub stripped chunk_text0 0 with
        | none => .ok ([], context)
        | some skip_idx =>
          let newText := w.text ++ stripped.take skip_idx
          if newText ≠ [] then
            let w' : MatchEntity :=
              { w with text := newText, value := .pstr newText }
            let entities' := context.entities.dropLast ++ [w']
            .ok ([⟨context.text.drop (skip_idx + chunk_text0.length), entities',
                  context.intent_context, true, context.unmatched_entities⟩],
                ⟨context.text, entities', context.intent_context,
                  context.is_start_of_word, context.unmatched_entities⟩)
          else
            .ok ([], ⟨context.text,
                  context.entities.dropLast ++ [{ w with text := newText }],
                  context.intent_context, context.is_start_of_word,
                  context.unmatched_entities⟩)
      | none =>
        match (if settings.allow_unmatched_entities then context.get_open_entity
          else none) with
        | some (uname, utext) =>
          -- extend the open unmatched text entity in place
          match findSub stripped chunk_text0 0 with
          | none => .ok ([], context)
          | some skip_idx =>
            let newText := utext ++ stripped.take skip_idx
            let unmatched' := context.unmatched_entities.dropLast ++
              [.unmatchedText uname newText true]
            if newText ≠ [] then
              .ok ([⟨context.text.drop (skip_idx + chunk_text0.length),
                    context.entities, context.intent_context, true, unmatched'⟩],
                  ⟨context.text, context.entities, context.intent_context,
                    context.is_start_of_word, unmatched'⟩)
            else
              .ok ([], ⟨context.text, context.entities, context.intent_context,
                    context.is_start_of_word, unmatched'⟩)
        | none =>
          -- match failed
          .ok ([], context)

/-- The TextChunk case of match_expression (recognize.py lines 630-792).
The first component of the result is the list of yielded contexts; the
second is the context the caller passed in, as observable after the
generator is exhausted: the source mutates entities and unmatched entities
through lists aliased between the input context and yielded contexts (the
open-wildcard extension at line 758, the open-unmatched extension at line
778, and the close_wildcards / close_unmatched flags of the startswith
yield at line 719, which run __post_init__ over the shared lists), and the
second component records those mutations.  Yielded contexts are snapshots
taken at yield time. -/
def matchTextChunk (m : MatchRec) (settings : MatchSettings) (context : MatchContext)
    (chunkFull : Str) : Except MatchError (List MatchContext × MatchContext) :=
  let chunk_text0 :=
    if settings.ignore_whitespace then removeWs chunkFull
    else if context.is_start_of_word then lstrip chunkFull
    else chunkFull
  let context_text0 :=
    if settings.ignore_whitespace then removeWs context.text
    else if context.is_start_of_word then lstrip context.text
    else context.text
  let is_context_text_empty := (strip context_text0).isEmpty
  if chunkFull = [] then
    -- chunk.is_empty: yield the context unchanged (same object)
    .ok ([context], context)
  else
    match context.get_open_wildcard with
    | some wildcard =>
      if strip wildcard.text = [] then
        if strip chunk_text0 = [] then
          -- whitespace chunk over an empty open wildcard: skip the space
          .ok ([⟨context_text0, context.entities, context.intent_context,
                true, context.unmatched_entities⟩], context)
        else
          -- close the wildcard at each occurrence of the chunk text after 0
          let firstIdx :=
            match findSub context_text0 chunk_text0 0 with
            | none => none
            | some 0 => findSub context_text0 chunk_text0 1
            | some i => some i
          match firstIdx with
          | none => .ok ([], context)
          | some i => do
            let occs := occurrencesFrom context_text0 chunk_text0 i
            let yields ← flatMapContexts
              (fun c => m c (.textChunk chunkFull))
              (occs.map (fun idx =>
                ⟨context_text0.drop idx,
                  context.entities.dropLast ++
                    [⟨wildcard.name, .pstr (context_text0.take idx),
                      context_text0.take idx, false, true⟩],
                  context.intent_context, true, context.unmatched_entities⟩))
            .ok (yields, context)
      else
        matchTextChunkLiteral settings context chunk_text0 context_text0
          is_context_text_empty chunkFull (some wildcard)
    | none =>
      matchTextChunkLiteral settings context chunk_text0 context_text0
        is_context_text_empty chunkFull none

/-- match_expression of recognize.py, with fuel for the unbounded recursion
through expansion rules, wildcard re-matching and slot value expressions.
Yields (as a list) the contexts the Python generator yields; SequenceType
and SlotList are closed variants here, so the ValueError arms of the source
for unexpected variants are unreachable.  The missing-list and missing-rule
checks of the source first test truthiness of the whole dictionary and then
membership, which coincides with a failing lookup. -/
def matchExpression : Nat → MatchSettings → MatchContext → Expression →
    Except MatchError (List MatchContext)
  | 0, _, _, _ => .error .fuelExhausted
  | Nat.succ fuel, settings, context, expr =>
    match expr with
    | .textChunk chunkFull =>
      (matchTextChunk (fun c e => matchExpression fuel settings c e)
        settings context chunkFull).map Prod.fst
    | .sequence .alternative items =>
      matchItems (fun c e => matchExpression fuel settings c e) context items
    | .sequence .group items =>
      if items.isEmpty then .ok []
      else groupFoldAbort (fun c e => matchExpression fuel settings c e) [context] items
    | .listReference list_name slot_name =>
      match pyGet? settings.slot_lists list_name with
      | none => .error (.hassilErr (.missingListError list_name))
      | some (.textList values) =>
        if context.text = [] then .ok []
        else matchTextListValues (fun c e => matchExpression fuel settings c e)
          settings.allow_unmatched_entities context slot_name values
      | some (.rangeList rstart rstop rstep) =>
        if context.text = [] then .ok []
        else
          match lexNumber context.text with
          | some (number_text, word_number) =>
            if rangeContains rstart rstop rstep word_number then
              .ok [⟨context.text.drop number_text.length,
                    context.entities ++
                      [⟨slot_name, .pint word_number, firstWsToken context.text,
                        false, true⟩],
                    context.intent_context, context.is_start_of_word,
                    context.unmatched_entities⟩]
            else if settings.allow_unmatched_entities then
              .ok [⟨context.text.drop number_text.length, context.entities,
                    context.intent_context, context.is_start_of_word,
                    context.unmatched_entities ++
                      [.unmatchedRange slot_name word_number]⟩]
            else .ok []
          | none =>
            if settings.allow_unmatched_entities then
              .ok [⟨context.text, closeWildcards context.entities,
                    context.intent_context, context.is_start_of_word,
                    context.unmatched_entities ++ [.unmatchedText slot_name [] true]⟩]
            else .ok []
      | some .wildcardList =>
        if context.text = [] then .ok []
        else
          .ok [⟨context.text,
                context.entities ++ [⟨slot_name, .pstr [], [], true, true⟩],
                context.intent_context, context.is_start_of_word,
                closeUnmatchedTexts context.unmatched_entities⟩]
    | .ruleReference rule_name =>
      match pyGet? settings.expansion_rules rule_name with
      | none => .error (.hassilErr (.missingRuleError rule_name))
      | some rule => matchExpression fuel settings context rule

/-- The contexts of a successful run, the empty list on error.  Used to state
properties of the yielded contexts without naming the result list. -/
def okContexts (r : Except MatchError (List MatchContext)) : List MatchContext :=
  match r with
  | .ok cs => cs
  | .error _ => []

/-- Modelled from the spec: per-intents settings of intents.py (not part of
the sources); only ignore_whitespace is consulted by the recognizer. -/
structure IntentsSettings where
  ignore_whitespace : Bool
deriving Repr

/-- Modelled from the spec: IntentData of intents.py (not part of the
sources): a sentence group with fixed slot values, context predicates, a
response key and private expansion rules. -/
structure IntentData where
  sentences : List Expression
  slots : List (Str × PyValue)
  requires_context : List (Str × PyValue)
  excludes_context : List (Str × PyValue)
  expansion_rules : List (Str × Expression)
  response : Option Str
deriving Repr

/-- Modelled from the spec: Intent of intents.py (not part of the sources). -/
structure Intent where
  name : Str
  data : List IntentData
deriving Repr

/-- Modelled from the spec: the Intents bundle of intents.py (not part of the
sources).  The intents dictionary is iterated over its values in insertion
order. -/
structure Intents where
  intents : List (Str × Intent)
  slot_lists : List (Str × SlotList)
  expansion_rules : List (Str × Expression)
  skip_words : List Str
  settings : IntentsSettings
deriving Repr

/-- RecognizeResult of recognize.py.  The by-name maps are Python dict
comprehensions over the lists. -/
structure RecognizeResult where
  intent : Intent
  intent_data : IntentData
  entities : List (Str × MatchEntity)
  entities_list : List MatchEntity
  response : Option Str
  context : List (Str × PyValue)
  unmatched_entities : List (Str × UnmatchedEntity)
  unmatched_entities_list : List UnmatchedEntity
deriving Repr

/-- Dict comprehension keyed by a name function: later items overwrite the
value at the first position of the key, like a Python dict. -/
def buildByName {α : Type} (nameOf : α → Str) (xs : List α) : List (Str × α) :=
  xs.foldl (fun d x => dictInsert d (nameOf x) x) []

/-- The sentinel text for a synthesized missing required entity. -/
def MISSING_ENTITY : Str := "<missing>".toList

/-- _remove_skip_words of recognize.py: process the skip words longest
first; with whitespace ignored each is removed as a literal substring,
otherwise as a word-boundary-delimited regex; finally (whitespace kept)
collapse and strip whitespace. -/
def removeSkipWords (text : Str) (skip_words : List Str) (ignore_ws : Bool) : Str :=
  let text := (sortByLenDesc skip_words).foldl
    (fun t w =>
      let w := normalize_text w
      if ignore_ws then replaceAll t w else subWordBounded t w)
    text
  if !ignore_ws then strip (normalize_whitespace text) else text

/-- The requires part of the pre-match filter of recognize_all (lines
341-360): a required value of None or an absent key is undecidable and
skipped over; a present key must satisfy membership when the required
value is a Collection (Python strings included, as in the source) and
equality otherwise. -/
def preMatchRequiresSkip (ictx : List (Str × PyValue)) :
    List (Str × PyValue) → Except MatchError Bool
  | [] => .ok false
  | (k, v) :: rest =>
    if pyEq v .pnone then preMatchRequiresSkip ictx rest
    else
      match pyGet? ictx k with
      | none => preMatchRequiresSkip ictx rest
      | some actual =>
        if pyIsCollection v then do
          let m ← pyMem actual v
          if !m then .ok true else preMatchRequiresSkip ictx rest
        else if !(pyEq actual v) then .ok true
        else preMatchRequiresSkip ictx rest

/-- The excludes part of the pre-match filter exactly as the source writes
it (lines 365-381).  Note the loop header at line 369 iterates
intent_data.requires_context even though the guard tested
excludes_context; the items passed here by preMatchSkip are therefore the
requires items, transcribed faithfully. -/
def preMatchExcludesSkipAsWritten (ictx : List (Str × PyValue)) :
    List (Str × PyValue) → Except MatchError Bool
  | [] => .ok false
  | (k, v) :: rest =>
    match pyGet? ictx k with
    | none => preMatchExcludesSkipAsWritten ictx rest
    | some actual =>
      if pyIsCollection v then do
        let m ← pyMem actual v
        if m then .ok true else preMatchExcludesSkipAsWritten ictx rest
      else if pyEq actual v then .ok true
      else preMatchExcludesSkipAsWritten ictx rest

/-- The complete pre-match filter of recognize_all (lines 340-384), run only
when the caller-provided intent context is non-empty: true means the
intent data is skipped before matching.  The excludes pass receives the
requires items, mirroring the loop header at line 369 of the source. -/
def preMatchSkip (ictx : List (Str × PyValue)) (d : IntentData) :
    Except MatchError Bool := do
  let s1 ← if d.requires_context ≠ [] then preMatchRequiresSkip ictx d.requires_context
    else .ok false
  if s1 then .ok true
  else if d.excludes_context ≠ [] then
    preMatchExcludesSkipAsWritten ictx d.requires_context
  else .ok false

/-- Modelled from the spec: the pre-match excludes filter as the
specification describes it, iterating the excludes mapping itself: a key
absent from the intent context is not a reason to skip; a present key
whose value matches the excluded value (membership when the excluded value
is a non-string collection, equality otherwise) causes a skip. -/
def preMatchExcludesSkipSpec (ictx : List (Str × PyValue)) :
    List (Str × PyValue) → Bool
  | [] => false
  | (k, v) :: rest =>
    match pyGet? ictx k with
    | none => preMatchExcludesSkipSpec ictx rest
    | some actual =>
      if pyIsCollection v && !(pyIsStr v) then
        match v with
        | .plist items =>
          (match actual with
            | .pstr s => decide (s ∈ items)
            | _ => false) || preMatchExcludesSkipSpec ictx rest
        | _ => preMatchExcludesSkipSpec ictx rest
      else if pyEq actual v then true
      else preMatchExcludesSkipSpec ictx rest

/-- The closing pass of recognize_all (lines 408-420): with trailing text
left, feed it to the last open unmatched text entity, else to the last
open wildcard, closing it; otherwise leave the context unchanged. -/
def closePass (mc : MatchContext) (final_text : Str) : MatchContext :=
  match mc.get_open_entity with
  | some (uname, utext) =>
    ⟨[], mc.entities, mc.intent_context, mc.is_start_of_word,
      mc.unmatched_entities.dropLast ++ [.unmatchedText uname (utext ++ final_text) false]⟩
  | none =>
    match mc.get_open_wildcard with
    | some w =>
      let w' : MatchEntity :=
        { w with
          text := w.text ++ final_text
          value := .pstr (w.text ++ final_text)
          is_wildcard_open := false }
      ⟨[], mc.entities.dropLast ++ [w'],
        mc.intent_context, mc.is_start_of_word, mc.unmatched_entities⟩
    | none => mc

/-- The post-match excludes verification of recognize_all (lines 429-449):
iterates the excludes items; a skip on Python equality with the actual
value (dict.get default None), or on membership when the excluded value is
a non-string collection. -/
def excludesPostSkip (ictx : List (Str × PyValue)) :
    List (Str × PyValue) → Except MatchError Bool
  | [] => .ok false
  | (k, v) :: rest => do
    let actual := (pyGet? ictx k).getD .pnone
    if pyEq actual v then .ok true
    else if pyIsCollection v && !(pyIsStr v) then do
      let m ← pyMem actual v
      if m then .ok true else excludesPostSkip ictx rest
    else excludesPostSkip ictx rest

/-- First unmatched text entity with the given name, if any (the lookup of
lines 462-472). -/
def findUnmatchedText : List UnmatchedEntity → Str → Option Str
  | [], _ => none
  | .unmatchedText n t _ :: rest, k => if n = k then some t else findUnmatchedText rest k
  | .unmatchedRange _ _ :: rest, k => findUnmatchedText rest k

/-- The post-match requires verification of recognize_all (lines 452-514),
threading the context because tolerant mode appends placeholder unmatched
entities: returns (skip, updated context). -/
def requiresPostLoop (allow_unmatched : Bool) (mc : MatchContext) :
    List (Str × PyValue) → Except MatchError (Bool × MatchContext)
  | [] => .ok (false, mc)
  | (k, v) :: rest => do
    let actual0 := (pyGet? mc.intent_context k).getD .pnone
    let actual :=
      if allow_unmatched && pyEq actual0 .pnone then
        match findUnmatchedText mc.unmatched_entities k with
        | some t => .pstr t
        | none => actual0
      else actual0
    if pyEq actual v && !(pyEq v .pnone) then requiresPostLoop allow_unmatched mc rest
    else if pyEq v .pnone && !(pyEq actual .pnone) then
      requiresPostLoop allow_unmatched mc rest
    else do
      let inColl ←
        if pyIsCollection v && !(pyIsStr v) then pyMem actual v else .ok false
      if inColl then requiresPostLoop allow_unmatched mc rest
      else if allow_unmatched then
        let mc :=
          if mc.unmatched_entities.any (fun u => decide (u.name = k)) then mc
          else ⟨mc.text, mc.entities, mc.intent_context, mc.is_start_of_word,
            mc.unmatched_entities ++ [.unmatchedText k MISSING_ENTITY false]⟩
        requiresPostLoop allow_unmatched mc rest
      else .ok (true, mc)

/-- Per-context post-processing of recognize_all (lines 406-550): close the
trailing text into an open unmatched entity or wildcard, reject
non-matches, verify the excluded then required context, append fixed slot
entities, and assemble the result. -/
def processCandidate (allow_unmatched : Bool) (default_response : Option Str)
    (intent : Intent) (d : IntentData) (mc0 : MatchContext) :
    Except MatchError (Option RecognizeResult) := do
  let final_text := strip mc0.text
  let mc1 := if final_text ≠ [] then closePass mc0 final_text else mc0
  if !mc1.is_match then .ok none
  else do
    let skip1 ← excludesPostSkip mc1.intent_context d.excludes_context
    if skip1 then .ok none
    else do
      let sm ← if d.requires_context ≠ [] then
          requiresPostLoop allow_unmatched mc1 d.requires_context
        else .ok (false, mc1)
      if sm.1 then .ok none
      else do
        let mc2 := sm.2
        let entity_names : List Str := mc2.entities.map (fun e => e.name)
        let mc3 := d.slots.foldl
          (fun m p =>
            if decide (p.1 ∈ entity_names) then m
            else ⟨m.text, m.entities ++ [⟨p.1, p.2, [], false, true⟩],
              m.intent_context, m.is_start_of_word, m.unmatched_entities⟩)
          mc2
        let response :=
          match d.response with
          | some r => some r
          | none => default_response
        .ok (some ⟨intent, d,
          buildByName (fun e => e.name) mc3.entities, mc3.entities,
          response, mc3.intent_context,
          buildByName UnmatchedEntity.name mc3.unmatched_entities,
          mc3.unmatched_entities⟩)

/-- The per-context loop over the contexts yielded for one sentence. -/
def collectResults (allow_unmatched : Bool) (default_response : Option Str)
    (intent : Intent) (d : IntentData) :
    List MatchContext → Except MatchError (List RecognizeResult)
  | [] => .ok []
  | mc :: rest => do
    let r? ← processCandidate allow_unmatched default_response intent d mc
    let more ← collectResults allow_unmatched default_response intent d rest
    .ok (match r? with
      | some r => r :: more
      | none => more)

/-- The sentence loop of recognize_all (lines 397-550) for one intent data. -/
def recognizeSentences (fuel : Nat) (settings : MatchSettings) (text : Str)
    (ictx : List (Str × PyValue)) (default_response : Option Str)
    (allow_unmatched : Bool) (intent : Intent) (d : IntentData) :
    List Expression → Except MatchError (List RecognizeResult)
  | [] => .ok []
  | sentence :: rest => do
    let mcs ← matchExpression fuel settings ⟨text, [], ictx, true, []⟩ sentence
    let here ← collectResults allow_unmatched default_response intent d mcs
    let more ← recognizeSentences fuel settings text ictx default_response
      allow_unmatched intent d rest
    .ok (here ++ more)

/-- One intent-data step of recognize_all: pre-filter when an intent context
was provided, overlay the intent-data expansion rules on the settings, and
run every sentence. -/
def recognizeIntentData (fuel : Nat) (settings : MatchSettings) (text : Str)
    (ictx : List (Str × PyValue)) (default_response : Option Str)
    (allow_unmatched : Bool) (intent : Intent) (d : IntentData) :
    Except MatchError (List RecognizeResult) := do
  let skip ← if ictx ≠ [] then preMatchSkip ictx d else .ok false
  if skip then .ok []
  else
    let local_settings : MatchSettings :=
      ⟨settings.slot_lists, pyDictMerge settings.expansion_rules d.expansion_rules,
        settings.ignore_whitespace, settings.allow_unmatched_entities⟩
    recognizeSentences fuel local_settings text ictx default_response
      allow_unmatched intent d d.sentences

/-- The intent-data loop of recognize_all for one intent. -/
def recognizeDataList (fuel : Nat) (settings : MatchSettings) (text : Str)
    (ictx : List (Str × PyValue)) (default_response : Option Str)
    (allow_unmatched : Bool) (intent : Intent) :
    List IntentData → Except MatchError (List RecognizeResult)
  | [] => .ok []
  | d :: rest => do
    let here ← recognizeIntentData fuel settings text ictx default_response
      allow_unmatched intent d
    let more ← recognizeDataList fuel settings text ictx default_response
      allow_unmatched intent rest
    .ok (here ++ more)

/-- The intent loop of recognize_all over the values of the intents map. -/
def recognizeIntents (fuel : Nat) (settings : MatchSettings) (text : Str)
    (ictx : List (Str × PyValue)) (default_response : Option Str)
    (allow_unmatched : Bool) :
    List (Str × Intent) → Except MatchError (List RecognizeResult)
  | [] => .ok []
  | (_, intent) :: rest => do
    let here ← recognizeDataList fuel settings text ictx default_response
      allow_unmatched intent intent.data
    let more ← recognizeIntents fuel settings text ictx default_response
      allow_unmatched rest
    .ok (here ++ more)

/-- recognize_all of recognize.py: normalize and strip the input, remove
skip words (the skip-word pass runs whenever the caller passed a skip-word
argument or the intents carry skip words, matching the truthiness of the
itertools chain in the source), remove or pad whitespace, merge slot
lists and expansion rules (caller wins), and run every intent, intent data
and sentence in order, collecting the results.  The generator is modeled
as the list of its yields. -/
def recognize_all (fuel : Nat) (text0 : Str) (intents : Intents)
    (slot_lists_arg : Option (List (Str × SlotList)))
    (expansion_rules_arg : Option (List (Str × Expression)))
    (skip_words_arg : Option (List Str))
    (intent_context_arg : Option (List (Str × PyValue)))
    (default_response : Option Str) (allow_unmatched_entities : Bool) :
    Except MatchError (List RecognizeResult) :=
  let text1 := strip (normalize_text text0)
  let sw_applied := skip_words_arg.isSome || !intents.skip_words.isEmpty
  let sw :=
    match skip_words_arg with
    | none => intents.skip_words
    | some ws => ws ++ intents.skip_words
  let text2 := if sw_applied then
      removeSkipWords text1 sw intents.settings.ignore_whitespace
    else text1
  let text3 := if intents.settings.ignore_whitespace then removeWs text2
    else text2 ++ [' ']
  let slotLists :=
    match slot_lists_arg with
    | none => intents.slot_lists
    | some sl => pyDictMerge intents.slot_lists sl
  let expRules :=
    match expansion_rules_arg with
    | none => intents.expansion_rules
    | some er => pyDictMerge intents.expansion_rules er
  let ictx := intent_context_arg.getD []
  let settings : MatchSettings :=
    ⟨slotLists, expRules, intents.settings.ignore_whitespace,
      allow_unmatched_entities⟩
  recognizeIntents fuel settings text3 ictx default_response
    allow_unmatched_entities intents.intents

/-- recognize of recognize.py: iterate recognize_all and return the first
yielded result, or None when the iteration finishes without a yield. -/
def recognize (fuel : Nat) (text0 : Str) (intents : Intents)
    (slot_lists_arg : Option (List (Str × SlotList)))
    (expansion_rules_arg : Option (List (Str × Expression)))
    (skip_words_arg : Option (List Str))
    (intent_context_arg : Option (List (Str × PyValue)))
    (default_response : Option Str) (allow_unmatched_entities : Bool) :
    Except MatchError (Option RecognizeResult) := do
  let results ← recognize_all fuel text0 intents slot_lists_arg
    expansion_rules_arg skip_words_arg intent_context_arg default_response
    allow_unmatched_entities
  .ok results.head?

/-! Supporting lemmas. -/

/-- Looking up the key just assigned returns the assigned value. -/
theorem pyGet?_dictInsert_self {α : Type} (d : List (Str × α)) (k : Str) (v : α) :
    pyGet? (dictInsert d k v) k = some v := by
  induction d with
  | nil => simp [dictInsert, pyGet?]
  | cons p rest ih =>
    obtain ⟨k0, v0⟩ := p
    by_cases h : k0 = k
    · simp [dictInsert, h, pyGet?]
    · simp [dictInsert, h, pyGet?, ih]

/-- Assigning one key does not change the lookup of another. -/
theorem pyGet?_dictInsert_ne {α : Type} (d : List (Str × α)) (k k' : Str) (v : α)
    (h : k ≠ k') : pyGet? (dictInsert d k v) k' = pyGet? d k' := by
  induction d with
  | nil => simp [dictInsert, pyGet?, h]
  | cons p rest ih =>
    obtain ⟨k0, v0⟩ := p
    by_cases h0 : k0 = k
    · subst h0
      simp [dictInsert, pyGet?, h]
    · simp [dictInsert, h0, pyGet?, ih]

/-- A key outside the key list of an association list looks up to none. -/
theorem pyGet?_eq_none_of_not_mem {α : Type} (d : List (Str × α)) (k : Str)
    (h : k ∉ d.map Prod.fst) : pyGet? d k = none := by
  induction d with
  | nil => rfl
  | cons p rest ih =>
    obtain ⟨k0, v0⟩ := p
    simp only [List.map_cons, List.mem_cons] at h
    push_neg at h
    have h0 : ¬k0 = k := fun hh => h.1 hh.symm
    simp [pyGet?, h0, ih h.2]

/-- Unfolding of the Python merge over a cons overlay. -/
theorem pyDictMerge_cons {α : Type} (d : List (Str × α)) (k : Str) (v : α)
    (rest : List (Str × α)) :
    pyDictMerge d ((k, v) :: rest) = pyDictMerge (dictInsert d k v) rest := rfl

/-- A key not assigned by the overlay keeps its base lookup after a merge. -/
theorem pyGet?_pyDictMerge_of_overlay_none {α : Type} (o d : List (Str × α)) (k : Str)
    (h : pyGet? o k = none) : pyGet? (pyDictMerge d o) k = pyGet? d k := by
  induction o generalizing d with
  | nil => rfl
  | cons p rest ih =>
    obtain ⟨k0, v0⟩ := p
    by_cases h0 : k0 = k
    · simp [pyGet?, h0] at h
    · rw [pyDictMerge_cons, ih]
      · exact pyGet?_dictInsert_ne d k0 k v0 h0
      · simpa [pyGet?, h0] using h

/-- With duplicate-free overlay keys (the dictionary representation
invariant), every overlay entry wins after a merge. -/
theorem pyGet?_pyDictMerge_of_overlay_some {α : Type} (o d : List (Str × α)) (k : Str)
    (v : α) (hnd : (o.map Prod.fst).Nodup) (h : pyGet? o k = some v) :
    pyGet? (pyDictMerge d o) k = some v := by
  induction o generalizing d with
  | nil => simp [pyGet?] at h
  | cons p rest ih =>
    obtain ⟨k0, v0⟩ := p
    simp only [List.map_cons, List.nodup_cons] at hnd
    by_cases h0 : k0 = k
    · subst h0
      simp only [pyGet?, if_pos rfl] at h
      obtain rfl : v0 = v := Option.some.inj h
      rw [pyDictMerge_cons]
      have hnone : pyGet? rest k0 = none :=
        pyGet?_eq_none_of_not_mem rest k0 hnd.1
      rw [pyGet?_pyDictMerge_of_overlay_none rest (dictInsert d k0 v0) k0 hnone]
      exact pyGet?_dictInsert_self d k0 v0
    · rw [pyDictMerge_cons]
      exact ih _ hnd.2 (by simpa [pyGet?, h0] using h)

/-- The in-range test of the range branch agrees with the interval-and-step
membership formula of the spec whenever the step is at least one. -/
theorem rangeContains_eq_true_iff (a b s n : Int) (hs : 1 ≤ s) :
    rangeContains a b s n = true ↔ (a ≤ n ∧ n ≤ b ∧ (n - a) % s = 0) := by
  unfold rangeContains
  by_cases h1 : s = 1
  · subst h1
    simp [Int.emod_one]
  · simp [h1, Int.lt_add_one_iff, and_assoc]

/-- The flat-map over an empty candidate list yields nothing. -/
theorem flatMapContexts_nil (m : MatchContext → Except MatchError (List MatchContext)) :
    flatMapContexts m [] = .ok [] := rfl

/-- Bind of a successful Except reduces to the continuation. -/
@[simp] theorem except_bind_ok {ε α β : Type} (a : α) (f : α → Except ε β) :
    ((Except.ok a : Except ε α) >>= f) = f a := rfl

/-- Bind of a failed Except propagates the error. -/
@[simp] theorem except_bind_error {ε α β : Type} (e : ε) (f : α → Except ε β) :
    ((Except.error e : Except ε α) >>= f) = .error e := rfl

/-- A plain left fold of the flat-map step started from no candidates stays
at no candidates. -/
theorem foldlM_flatMap_nil (m : MatchRec) (items : List Expression) :
    items.foldlM (fun acc item => flatMapContexts (fun c => m c item) acc)
      ([] : List MatchContext) = .ok [] := by
  induction items with
  | nil => rfl
  | cons i rest ih =>
    simpa [List.foldlM_cons, flatMapContexts, Except.bind] using ih

/-- The early-abort fold of the GROUP branch computes the plain left fold of
the flat-map step: breaking out of the loop on an empty candidate list does
not change the result, because the flat-map of an empty list is empty. -/
theorem groupFoldAbort_eq_foldlM (m : MatchRec) (items : List Expression)
    (acc : List MatchContext) :
    groupFoldAbort m acc items =
      items.foldlM (fun acc item => flatMapContexts (fun c => m c item) acc) acc := by
  induction items generalizing acc with
  | nil => rfl
  | cons i rest ih =>
    rw [List.foldlM_cons]
    unfold groupFoldAbort
    cases h : flatMapContexts (fun c => m c i) acc with
    | error e => simp [h]
    | ok acc2 =>
      simp only [h, except_bind_ok]
      by_cases h2 : acc2 = []
      · subst h2
        simp [foldlM_flatMap_nil m rest]
      · simp [h2, ih]

/-! Claim theorems. -/

/-- Claim C3: a context is accepted (is_match) if and only if its remaining
text with all punctuation removed and whitespace stripped is empty, every
wildcard match entity has text that is non-empty after trimming whitespace,
and every unmatched text entity has text that is non-empty after trimming
whitespace. -/
theorem is_match_characterization (c : MatchContext) :
    c.is_match = true ↔
      (strip (removePunct c.text) = []
        ∧ (∀ e ∈ c.entities, e.is_wildcard = true → strip e.text ≠ [])
        ∧ (∀ n t o, UnmatchedEntity.unmatchedText n t o ∈ c.unmatched_entities →
            strip t ≠ [])) := by
  unfold MatchContext.is_match
  split_ifs with h1 h2 h3
  · constructor
    · intro h
      exact absurd h (by simp)
    · rintro ⟨ht, -, -⟩
      rw [Bool.not_eq_true'] at h1
      rw [ht] at h1
      simp at h1
  · constructor
    · intro h
      exact absurd h (by simp)
    · rintro ⟨-, hw, -⟩
      rw [List.any_eq_true] at h2
      obtain ⟨e, he, hpred⟩ := h2
      rw [Bool.and_eq_true, List.isEmpty_iff] at hpred
      exact absurd hpred.2 (hw e he hpred.1)
  · constructor
    · intro h
      exact absurd h (by simp)
    · rintro ⟨-, -, hu⟩
      rw [List.any_eq_true] at h3
      obtain ⟨u, hu0, hpred⟩ := h3
      cases u with
      | unmatchedText n t o =>
        rw [List.isEmpty_iff] at hpred
        exact absurd hpred (hu n t o hu0)
      | unmatchedRange n v => simp at hpred
  · refine ⟨fun _ => ⟨?_, ?_, ?_⟩, fun _ => rfl⟩
    · simpa [List.isEmpty_iff] using h1
    · intro e he hwild
      intro hstrip
      exact h2 (List.any_eq_true.mpr ⟨e, he, by simp [hwild, hstrip]⟩)
    · intro n t o hmem hstrip
      exact h3 (List.any_eq_true.mpr ⟨.unmatchedText n t o, hmem, by simp [hstrip]⟩)

/-- Claim C6 (amended): matching a GROUP sequence with a non-empty item list
folds left, replacing the candidate list (seeded with the input context) by
the flat-map of matching each item in order and emitting every surviving
context, where the early abort of the source loop on an empty candidate
list coincides with the plain fold; a GROUP with an empty item list emits
no contexts (the source guards the whole fold on a non-empty item list). -/
theorem group_fold_left (fuel : Nat) (settings : MatchSettings)
    (context : MatchContext) (items : List Expression) :
    matchExpression (fuel + 1) settings context (.sequence .group items) =
      if items.isEmpty then .ok []
      else items.foldlM
        (fun acc item => flatMapContexts
          (fun c => matchExpression fuel settings c item) acc) [context] := by
  by_cases h : items.isEmpty
  · simp [matchExpression, h]
  · simp [matchExpression, h, groupFoldAbort_eq_foldlM]

/-- Claim C6, counterexample to the original claim: a GROUP with an empty
item list emits nothing, not the input context unchanged. -/
theorem group_empty_items_counterexample :
    matchExpression 1 ⟨[], [], false, false⟩ ⟨"x ".toList, [], [], true, []⟩
        (.sequence .group []) = .ok []
      ∧ (Except.ok ([] : List MatchContext) : Except MatchError (List MatchContext))
        ≠ .ok [⟨"x ".toList, [], [], true, []⟩] := by
  refine ⟨rfl, ?_⟩
  intro h
  exact absurd (Except.ok.inj h) (by simp)

/-- Claim C10: a ListReference whose name resolves to any slot list yields no
contexts at all when the remaining text is empty, whichever kind the list
is and whether or not tolerant mode is on. -/
theorem list_reference_empty_text_yields_nothing (fuel : Nat)
    (settings : MatchSettings) (context : MatchContext) (ln sn : Str)
    (sl : SlotList) (hres : pyGet? settings.slot_lists ln = some sl)
    (hempty : context.text = []) :
    matchExpression (fuel + 1) settings context (.listReference ln sn) = .ok [] := by
  simp only [matchExpression]
  rw [hres]
  cases sl <;> simp [hempty]

/-- Claim C10, witness. -/
theorem list_reference_empty_text_yields_nothing_witness :
    (pyGet? (⟨[("w".toList, .wildcardList)], [], false, true⟩ :
        MatchSettings).slot_lists "w".toList = some .wildcardList
      ∧ (⟨[], [], [], true, []⟩ : MatchContext).text = [])
    ∧ matchExpression 1 ⟨[("w".toList, .wildcardList)], [], false, true⟩
        ⟨[], [], [], true, []⟩ (.listReference "w".toList "w".toList) = .ok [] :=
  ⟨⟨rfl, rfl⟩,
    list_reference_empty_text_yields_nothing 0
      ⟨[("w".toList, .wildcardList)], [], false, true⟩ ⟨[], [], [], true, []⟩
      "w".toList "w".toList .wildcardList rfl rfl⟩

/-- Claim C5 (amended): for every settings and every context with non-empty
remaining text, a ListReference resolving to a WildcardSlotList emits
exactly one context: it appends one open wildcard entity with empty text
and empty value, keeps the remaining text and the rest of the context, and
closes the open unmatched text entities; with empty remaining text it
emits nothing. -/
theorem wildcard_slot_single_context (fuel : Nat) (settings : MatchSettings)
    (context : MatchContext) (ln sn : Str)
    (hres : pyGet? settings.slot_lists ln = some .wildcardList)
    (hne : context.text ≠ []) :
    matchExpression (fuel + 1) settings context (.listReference ln sn) =
      .ok [⟨context.text, context.entities ++ [⟨sn, .pstr [], [], true, true⟩],
        context.intent_context, context.is_start_of_word,
        closeUnmatchedTexts context.unmatched_entities⟩] := by
  simp only [matchExpression]
  rw [hres]
  simp [hne]

/-- Claim C5, witness. -/
theorem wildcard_slot_single_context_witness :
    (pyGet? (⟨[("w".toList, .wildcardList)], [], false, false⟩ :
        MatchSettings).slot_lists "w".toList = some .wildcardList
      ∧ (⟨"hi ".toList, [], [], true,
          [.unmatchedText "u".toList "t".toList true]⟩ : MatchContext).text ≠ [])
    ∧ matchExpression 1 ⟨[("w".toList, .wildcardList)], [], false, false⟩
        ⟨"hi ".toList, [], [], true, [.unmatchedText "u".toList "t".toList true]⟩
        (.listReference "w".toList "s".toList) =
      .ok [⟨"hi ".toList, [⟨"s".toList, .pstr [], [], true, true⟩], [], true,
        [.unmatchedText "u".toList "t".toList false]⟩] :=
  ⟨⟨rfl, by decide⟩,
    wildcard_slot_single_context 0 ⟨[("w".toList, .wildcardList)], [], false, false⟩
      ⟨"hi ".toList, [], [], true, [.unmatchedText "u".toList "t".toList true]⟩
      "w".toList "s".toList rfl (by decide)⟩

/-- Claim C5, counterexample to the original claim: with empty remaining
text the WildcardSlotList branch emits no context at all, so the claim
quantified over every input context fails. -/
theorem wildcard_slot_empty_text_counterexample :
    ¬∃ c, matchExpression 1 ⟨[("w".toList, .wildcardList)], [], false, true⟩
        ⟨[], [], [], true, []⟩ (.listReference "w".toList "w".toList) = .ok [c] := by
  rintro ⟨c, hc⟩
  have h0 : matchExpression 1 ⟨[("w".toList, .wildcardList)], [], false, true⟩
      ⟨[], [], [], true, []⟩ (.listReference "w".toList "w".toList) = .ok [] := rfl
  rw [h0] at hc
  exact absurd (Except.ok.inj hc) (by simp)

/-- Claim C1: evaluation of the pre-match filter at an intent context
holding key k with value v against intent data whose excludes_context maps
k to v and whose requires_context is empty.  The filter as written does
not skip (it iterates the empty requires mapping inside the excludes
check, recognize.py line 369), while the filter the claim and the spec
describe, iterating the excludes mapping, does skip. -/
theorem prematch_excludes_iterates_requires :
    preMatchSkip [("k".toList, .pstr "v".toList)]
        ⟨[], [], [], [("k".toList, .pstr "v".toList)], [], none⟩ = .ok false
      ∧ preMatchExcludesSkipSpec [("k".toList, .pstr "v".toList)]
          [("k".toList, .pstr "v".toList)] = true := ⟨rfl, rfl⟩

/-- Claim C2: enumerating the TextChunk match for chunk text of b-space
against a context whose last entity is an open non-empty wildcard leaves
the caller with a mutated context: the wildcard extension at recognize.py
line 758 writes through the aliased entity list, so the entity text the
caller holds changes from x to x-y-space. -/
theorem match_text_chunk_mutates_caller :
    (matchTextChunk (fun c e => matchExpression 3 ⟨[], [], false, false⟩ c e)
        ⟨[], [], false, false⟩
        ⟨"y b ".toList, [⟨"w".toList, .pstr "x".toList, "x".toList, true, true⟩],
          [], true, []⟩ "b ".toList).map Prod.snd =
      .ok ⟨"y b ".toList, [⟨"w".toList, .pstr "xy ".toList, "xy ".toList, true, true⟩],
        [], true, []⟩
    ∧ (⟨"y b ".toList, [⟨"w".toList, .pstr "xy ".toList, "xy ".toList, true, true⟩],
        [], true, []⟩ : MatchContext) ≠
      ⟨"y b ".toList, [⟨"w".toList, .pstr "x".toList, "x".toList, true, true⟩],
        [], true, []⟩ := ⟨rfl, by decide⟩

/-- An intents bundle with one intent whose only sentence references the
undefined slot list named nope. -/
def intentsMissingList : Intents :=
  ⟨[("i".toList, ⟨"i".toList,
    [⟨[.listReference "nope".toList "nope".toList], [], [], [], [], none⟩]⟩)],
   [], [], [], ⟨false⟩⟩

/-- Claim C7: matching a ListReference whose list name does not resolve
raises MissingListError, matching a RuleReference whose rule name does not
resolve raises MissingRuleError — both constructors of the common base
HassilError — and such an error propagates out of a whole recognize_all
call instead of becoming an empty result stream. -/
theorem missing_list_and_rule_errors (fuel g : Nat) (settings : MatchSettings)
    (context : MatchContext) (ln sn rn t : Str)
    (hl : pyGet? settings.slot_lists ln = none)
    (hr : pyGet? settings.expansion_rules rn = none) :
    matchExpression (fuel + 1) settings context (.listReference ln sn) =
        .error (.hassilErr (.missingListError ln))
      ∧ matchExpression (fuel + 1) settings context (.ruleReference rn) =
        .error (.hassilErr (.missingRuleError rn))
      ∧ recognize_all (g + 1) t intentsMissingList none none none none
          (some "default".toList) false =
        .error (.hassilErr (.missingListError "nope".toList)) := by
  refine ⟨?_, ?_, rfl⟩
  · simp only [matchExpression]
    rw [hl]
  · simp only [matchExpression]
    rw [hr]

/-- Claim C7, witness. -/
theorem missing_list_and_rule_errors_witness :
    (pyGet? (⟨[], [], false, false⟩ : MatchSettings).slot_lists "a".toList = none
      ∧ pyGet? (⟨[], [], false, false⟩ : MatchSettings).expansion_rules "b".toList = none)
    ∧ (matchExpression 1 ⟨[], [], false, false⟩ ⟨"x ".toList, [], [], true, []⟩
          (.listReference "a".toList "a".toList) =
        .error (.hassilErr (.missingListError "a".toList))
      ∧ matchExpression 1 ⟨[], [], false, false⟩ ⟨"x ".toList, [], [], true, []⟩
          (.ruleReference "b".toList) =
        .error (.hassilErr (.missingRuleError "b".toList))
      ∧ recognize_all 1 "x".toList intentsMissingList none none none none
          (some "default".toList) false =
        .error (.hassilErr (.missingListError "nope".toList))) :=
  ⟨⟨rfl, rfl⟩,
    missing_list_and_rule_errors 0 0 ⟨[], [], false, false⟩
      ⟨"x ".toList, [], [], true, []⟩ "a".toList "a".toList "b".toList "x".toList
      rfl rfl⟩

/-- Claim C9: recognize returns the first result recognize_all yields at the
same arguments, and returns none exactly when recognize_all yields
nothing. -/
theorem recognize_first_of_recognize_all (fuel : Nat) (text0 : Str)
    (intents : Intents) (sl : Option (List (Str × SlotList)))
    (er : Option (List (Str × Expression))) (sw : Option (List Str))
    (ic : Option (List (Str × PyValue))) (dr : Option Str) (au : Bool) :
    recognize fuel text0 intents sl er sw ic dr au =
        (recognize_all fuel text0 intents sl er sw ic dr au).map List.head?
      ∧ (recognize fuel text0 intents sl er sw ic dr au = .ok none ↔
        recognize_all fuel text0 intents sl er sw ic dr au = .ok []) := by
  have hdef : recognize fuel text0 intents sl er sw ic dr au =
      (recognize_all fuel text0 intents sl er sw ic dr au) >>=
        fun rs => .ok rs.head? := rfl
  cases h : recognize_all fuel text0 intents sl er sw ic dr au with
  | error e =>
    rw [hdef, h]
    exact ⟨rfl, by simp [Except.map]⟩
  | ok rs =>
    rw [hdef, h]
    refine ⟨rfl, ?_⟩
    simp only [except_bind_ok, Except.map]
    constructor
    · intro hh
      have : rs.head? = none := Except.ok.inj hh
      cases rs with
      | nil => rfl
      | cons a l => simp at this
    · intro hh
      have : rs = [] := Except.ok.inj hh
      subst this
      rfl

/-- Claim C8: when a TextSlotList value carrying a context overlay matches,
every context yielded for that value has intent_context equal to the prior
intent context merged with the overlay: every overlay entry is added with
the overlay value winning on key collision, and every key the overlay does
not mention keeps its prior lookup.  The overlay keys are assumed
duplicate-free, the representation invariant of a Python dict. -/
theorem text_slot_overlay_merge (fuel : Nat) (settings : MatchSettings)
    (context : MatchContext) (slot_name : Str) (v : TextSlotValue)
    (hov : v.context ≠ [])
    (hnd : (v.context.map Prod.fst).Nodup) :
    ∀ c ∈ okContexts (matchTextSlotValue
        (fun c e => matchExpression fuel settings c e) context slot_name v),
      c.intent_context = pyDictMerge context.intent_context v.context
      ∧ (∀ k val, pyGet? v.context k = some val →
          pyGet? c.intent_context k = some val)
      ∧ (∀ k, pyGet? v.context k = none →
          pyGet? c.intent_context k = pyGet? context.intent_context k) := by
  intro c hc
  unfold matchTextSlotValue at hc
  beta_reduce at hc
  cases h : matchExpression fuel settings
      ⟨context.text, context.entities, context.intent_context,
        context.is_start_of_word, context.unmatched_entities⟩ v.text_in with
  | error e =>
    rw [h] at hc
    simp [okContexts] at hc
  | ok vcs =>
    rw [h] at hc
    simp only [except_bind_ok, okContexts, List.mem_map] at hc
    obtain ⟨vc, hvc, hfc⟩ := hc
    simp only [hov, if_true, ne_eq, not_false_eq_true, if_pos] at hfc
    subst hfc
    refine ⟨rfl, ?_, ?_⟩
    · intro k val hk
      exact pyGet?_pyDictMerge_of_overlay_some v.context context.intent_context
        k val hnd hk
    · intro k hk
      exact pyGet?_pyDictMerge_of_overlay_none v.context context.intent_context k hk

/-- Claim C8, witness. -/
theorem text_slot_overlay_merge_witness :
    ((⟨.textChunk "on ".toList, .pstr "x".toList,
        [("domain".toList, .pstr "light".toList)]⟩ : TextSlotValue).context ≠ []
      ∧ ((⟨.textChunk "on ".toList, .pstr "x".toList,
        [("domain".toList, .pstr "light".toList)]⟩ :
          TextSlotValue).context.map Prod.fst).Nodup)
    ∧ ∀ c ∈ okContexts (matchTextSlotValue
        (fun c e => matchExpression 1 ⟨[], [], false, false⟩ c e)
        ⟨"on ".toList, [], [("area".toList, .pstr "k".toList)], true, []⟩
        "d".toList
        ⟨.textChunk "on ".toList, .pstr "x".toList,
          [("domain".toList, .pstr "light".toList)]⟩),
      c.intent_context = pyDictMerge [("area".toList, PyValue.pstr "k".toList)]
          [("domain".toList, PyValue.pstr "light".toList)]
      ∧ (∀ k val, pyGet? [("domain".toList, PyValue.pstr "light".toList)] k = some val →
          pyGet? c.intent_context k = some val)
      ∧ (∀ k, pyGet? [("domain".toList, PyValue.pstr "light".toList)] k = none →
          pyGet? c.intent_context k =
            pyGet? [("area".toList, PyValue.pstr "k".toList)] k) :=
  ⟨⟨by decide, by decide⟩,
    text_slot_overlay_merge 1 ⟨[], [], false, false⟩
      ⟨"on ".toList, [], [("area".toList, .pstr "k".toList)], true, []⟩
      "d".toList
      ⟨.textChunk "on ".toList, .pstr "x".toList,
        [("domain".toList, .pstr "light".toList)]⟩
      (by decide) (by decide)⟩

/-- Claim C4: matching a ListReference resolving to a RangeSlotList (step at
least one) against non-empty remaining text: when a leading integer lexes
and lies in the range with the step rule, exactly one context is emitted,
carrying a new MatchEntity whose value is the parsed integer and whose
text is the first whitespace token, with the text advanced past the
numeric prefix; when the lexed integer is out of range, tolerant mode
emits one context carrying an UnmatchedRangeEntity with that value and
strict mode emits nothing; and a new MatchEntity is emitted exactly when
an in-range integer lexes. -/
theorem range_slot_semantics (fuel : Nat) (settings : MatchSettings)
    (context : MatchContext) (ln sn : Str) (a b s : Int)
    (hres : pyGet? settings.slot_lists ln = some (.rangeList a b s))
    (hne : context.text ≠ []) (hs : 1 ≤ s) :
    (∀ nt n, lexNumber context.text = some (nt, n) →
        (a ≤ n ∧ n ≤ b ∧ (n - a) % s = 0) →
        matchExpression (fuel + 1) settings context (.listReference ln sn) =
          .ok [⟨context.text.drop nt.length,
            context.entities ++
              [⟨sn, .pint n, firstWsToken context.text, false, true⟩],
            context.intent_context, context.is_start_of_word,
            context.unmatched_entities⟩])
    ∧ (∀ nt n, lexNumber context.text = some (nt, n) →
        ¬(a ≤ n ∧ n ≤ b ∧ (n - a) % s = 0) →
        matchExpression (fuel + 1) settings context (.listReference ln sn) =
          (if settings.allow_unmatched_entities then
            .ok [⟨context.text.drop nt.length, context.entities,
              context.intent_context, context.is_start_of_word,
              context.unmatched_entities ++ [.unmatchedRange sn n]⟩]
          else .ok []))
    ∧ ((∃ c ∈ okContexts (matchExpression (fuel + 1) settings context
          (.listReference ln sn)), context.entities.length < c.entities.length)
        ↔ ∃ nt n, lexNumber context.text = some (nt, n)
            ∧ a ≤ n ∧ n ≤ b ∧ (n - a) % s = 0) := by
  have hbr : matchExpression (fuel + 1) settings context (.listReference ln sn) =
      (match lexNumber context.text with
        | some (number_text, word_number) =>
          if rangeContains a b s word_number then
            .ok [⟨context.text.drop number_text.length,
              context.entities ++
                [⟨sn, .pint word_number, firstWsToken context.text, false, true⟩],
              context.intent_context, context.is_start_of_word,
              context.unmatched_entities⟩]
          else if settings.allow_unmatched_entities then
            .ok [⟨context.text.drop number_text.length, context.entities,
              context.intent_context, context.is_start_of_word,
              context.unmatched_entities ++ [.unmatchedRange sn word_number]⟩]
          else .ok []
        | none =>
          if settings.allow_unmatched_entities then
            .ok [⟨context.text, closeWildcards context.entities,
              context.intent_context, context.is_start_of_word,
              context.unmatched_entities ++ [.unmatchedText sn [] true]⟩]
          else .ok []) := by
    simp only [matchExpression]
    rw [hres]
    simp [hne]
  refine ⟨?_, ?_, ?_⟩
  · intro nt n hlex hin
    rw [hbr, hlex]
    dsimp only
    rw [if_pos ((rangeContains_eq_true_iff a b s n hs).mpr hin)]
  · intro nt n hlex hin
    rw [hbr, hlex]
    dsimp only
    have hfalse : rangeContains a b s n = false := by
      rw [← Bool.not_eq_true]
      intro hTrue
      exact hin ((rangeContains_eq_true_iff a b s n hs).mp hTrue)
    simp only [hfalse, Bool.false_eq_true, if_false]
  · rw [hbr]
    cases hlex : lexNumber context.text with
    | none =>
      dsimp only
      constructor
      · rintro ⟨c, hc, hlen⟩
        by_cases hau : settings.allow_unmatched_entities
        · simp only [hau, if_true, okContexts, List.mem_singleton] at hc
          subst hc
          simp only [closeWildcards, List.length_map] at hlen
          exact absurd hlen (lt_irrefl _)
        · simp only [hau, if_false, Bool.false_eq_true, okContexts] at hc
          exact absurd hc (List.not_mem_nil c)
      · rintro ⟨nt, n, hsome, -⟩
        cases hsome
    | some p =>
      obtain ⟨nt0, n0⟩ := p
      dsimp only
      by_cases hin : rangeContains a b s n0 = true
      · constructor
        · rintro -
          exact ⟨nt0, n0, rfl, (rangeContains_eq_true_iff a b s n0 hs).mp hin⟩
        · rintro -
          rw [if_pos hin]
          refine ⟨⟨context.text.drop nt0.length,
            context.entities ++
              [⟨sn, .pint n0, firstWsToken context.text, false, true⟩],
            context.intent_context, context.is_start_of_word,
            context.unmatched_entities⟩, by simp [okContexts], by simp⟩
      · rw [if_neg hin]
        constructor
        · rintro ⟨c, hc, hlen⟩
          by_cases hau : settings.allow_unmatched_entities
          · simp only [hau, if_true, okContexts, List.mem_singleton] at hc
            subst hc
            exact absurd hlen (lt_irrefl _)
          · simp only [hau, if_false, Bool.false_eq_true, okContexts] at hc
            exact absurd hc (List.not_mem_nil c)
        · rintro ⟨nt, n, hsome, hin'⟩
          injection Option.some.inj hsome with h3 h4
          subst h3
          subst h4
          exact absurd ((rangeContains_eq_true_iff a b s n0 hs).mpr hin') hin

/-- Claim C4, witness. -/
theorem range_slot_semantics_witness :
    (pyGet? (⟨[("n".toList, .rangeList 0 10 2)], [], false, false⟩ :
        MatchSettings).slot_lists "n".toList = some (.rangeList 0 10 2)
      ∧ (⟨"4 ".toList, [], [], true, []⟩ : MatchContext).text ≠ []
      ∧ (1 : Int) ≤ 2)
    ∧ matchExpression 1 ⟨[("n".toList, .rangeList 0 10 2)], [], false, false⟩
        ⟨"4 ".toList, [], [], true, []⟩ (.listReference "n".toList "n".toList) =
      .ok [⟨("4 ".toList : Str).drop (("4".toList : Str)).length,
        [] ++ [⟨"n".toList, .pint 4, firstWsToken "4 ".toList, false, true⟩],
        [], true, []⟩] :=
  ⟨⟨rfl, by decide, by decide⟩,
    (range_slot_semantics 0 ⟨[("n".toList, .rangeList 0 10 2)], [], false, false⟩
      ⟨"4 ".toList, [], [], true, []⟩ "n".toList "n".toList 0 10 2
      rfl (by decide) (by decide)).1 "4".toList 4 (by decide) (by decide)⟩

end Hassil
